import Mathlib

/-!
Shallow embedding of the prepona edge model and subgraph views.

Edges (`src/graph/edge/default_edge.rs`, `src/graph/edge/flow_edge.rs`):
`DefaultEdge` carries endpoints and a `Magnitude` weight; `FlowEdge`
additionally carries `capacity : usize` and `flow : isize`.  Rust panics are
modelled as `Except String`, carrying the exact panic/`Err` message the code
formats.  `usize` is modelled as `Nat`, `isize` as `Int`; the same-width
`usize as isize` cast in the guards is Rust's two's-complement wrapping
reinterpretation, modelled exactly by `usizeAsIsize` (negative for values
whose top bit is set, e.g. `2^63 as isize = -2^63`).

Subgraphs (`src/graph/subgraph/mod.rs`): `Subgraph` stores a borrowed parent
graph, a list of `(src_id, dst_id, edge)` triples and a vertex-id list; the
`PhantomData<Ty>` directedness marker is modelled as an `EdgeDir` field that
no operation reads, exactly as the code never reads `Ty`.  The `Edge` trait's
`get_id` (declared outside the repository files) is passed as a function
parameter `getId` to the operations that use it.
-/

/-- `Magnitude<W>` of the magnitude crate: a finite value or an infinity. -/
inductive Magnitude (W : Type) where
  | finite : W → Magnitude W
  | posInfinite : Magnitude W
  | negInfinite : Magnitude W
deriving DecidableEq, Repr

/-- Rust's same-width `usize as isize` cast on a 64-bit target: the
two's-complement wrapping reinterpretation of the low 64 bits — values with
the top bit set come out negative; the cast itself never fails. -/
def usizeAsIsize (n : Nat) : Int :=
  if n % 2 ^ 64 < 2 ^ 63 then ((n % 2 ^ 64 : Nat) : Int)
  else ((n % 2 ^ 64 : Nat) : Int) - 2 ^ 64

/-- `DefaultEdge<W>`: endpoints plus a `Magnitude` weight. -/
structure DefaultEdge (W : Type) where
  src_id : Nat
  dst_id : Nat
  weight : Magnitude W
deriving DecidableEq, Repr

namespace DefaultEdge

/-- `DefaultEdge::init`: unconditional construction. -/
def init (src_id dst_id : Nat) (weight : Magnitude W) : DefaultEdge W :=
  { src_id := src_id, dst_id := dst_id, weight := weight }

/-- `DefaultEdge::get_weight`. -/
def get_weight (e : DefaultEdge W) : Magnitude W := e.weight

/-- `DefaultEdge::set_weight`. -/
def set_weight (e : DefaultEdge W) (weight : Magnitude W) : DefaultEdge W :=
  { e with weight := weight }

/-- `DefaultEdge::get_src_id`. -/
def get_src_id (e : DefaultEdge W) : Nat := e.src_id

/-- `DefaultEdge::get_dst_id`. -/
def get_dst_id (e : DefaultEdge W) : Nat := e.dst_id

/-- `impl From<(usize, usize, W)> for DefaultEdge<W>`: `weight.into()` wraps
the raw weight as `Magnitude::Finite`. -/
def from_triple (t : Nat × Nat × W) : DefaultEdge W :=
  init t.1 t.2.1 (Magnitude.finite t.2.2)

end DefaultEdge

/-- `FlowEdge<W>`: endpoints, `Magnitude` weight, `capacity: usize`,
`flow: isize`. -/
structure FlowEdge (W : Type) where
  src_id : Nat
  dst_id : Nat
  weight : Magnitude W
  capacity : Nat
  flow : Int
deriving DecidableEq, Repr

namespace FlowEdge

/-- `FlowEdge::init_with`: panics (here: `.error` with the panic message)
when `flow > capacity as isize`, with the wrapping cast on `capacity`. -/
def init_with (src_id dst_id : Nat) (weight : Magnitude W) (capacity : Nat)
    (flow : Int) : Except String (FlowEdge W) :=
  if flow > usizeAsIsize capacity then
    .error s!"Flow of the edge can not be greater than the capacity: {flow} > {capacity}"
  else
    .ok { src_id := src_id, dst_id := dst_id, weight := weight,
          capacity := capacity, flow := flow }

/-- `FlowEdge::get_flow`. -/
def get_flow (e : FlowEdge W) : Int := e.flow

/-- `FlowEdge::get_capacity`. -/
def get_capacity (e : FlowEdge W) : Nat := e.capacity

/-- `FlowEdge::set_flow`: panics when `flow > self.get_capacity() as isize`,
with the wrapping cast on the capacity. -/
def set_flow (e : FlowEdge W) (flow : Int) : Except String (FlowEdge W) :=
  if flow > usizeAsIsize e.get_capacity then
    .error s!"Flow of the edge can not be greater than the current capacity of the edge: {flow} > {e.get_capacity}"
  else
    .ok { e with flow := flow }

/-- `FlowEdge::set_capacity`: panics when `(capacity as isize) <
self.get_flow()`, with the wrapping cast on `capacity`. -/
def set_capacity (e : FlowEdge W) (capacity : Nat) : Except String (FlowEdge W) :=
  if usizeAsIsize capacity < e.get_flow then
    .error s!"Capacity of the edge can not be smaller than the current flow of the edge: {capacity} < {e.get_flow}"
  else
    .ok { e with capacity := capacity }

/-- `Edge::init` for `FlowEdge`: capacity and flow of 0, via `init_with`. -/
def init (src_id dst_id : Nat) (weight : Magnitude W) : Except String (FlowEdge W) :=
  init_with src_id dst_id weight 0 0

/-- `FlowEdge::get_weight`. -/
def get_weight (e : FlowEdge W) : Magnitude W := e.weight

/-- `FlowEdge::set_weight`. -/
def set_weight (e : FlowEdge W) (weight : Magnitude W) : FlowEdge W :=
  { e with weight := weight }

/-- `FlowEdge::get_src_id`. -/
def get_src_id (e : FlowEdge W) : Nat := e.src_id

/-- `FlowEdge::get_dst_id`. -/
def get_dst_id (e : FlowEdge W) : Nat := e.dst_id

/-- `impl From<(usize, usize, W)> for FlowEdge<W>`: delegates to `init` with
the raw weight wrapped as `Magnitude::Finite`. -/
def from_triple (t : Nat × Nat × W) : Except String (FlowEdge W) :=
  init t.1 t.2.1 (Magnitude.finite t.2.2)

/-- `impl TryFrom<(usize, usize, W, usize, isize)> for FlowEdge<W>`: `Err`
with the descriptive message when `flow > capacity as isize` (wrapping cast
on `capacity`), otherwise delegates to `init_with`. -/
def try_from (t : Nat × Nat × W × Nat × Int) : Except String (FlowEdge W) :=
  match t with
  | (src_id, dst_id, weight, capacity, flow) =>
    if flow > usizeAsIsize capacity then
      .error s!"Flow of the edge can not be greater than the capacity: {flow} > {capacity}"
    else
      init_with src_id dst_id (Magnitude.finite weight) capacity flow

/-- The documented invariant of a flow edge: `flow ≤ capacity`. -/
def invariant (e : FlowEdge W) : Prop := e.flow ≤ (e.capacity : Int)

instance (e : FlowEdge W) : Decidable e.invariant := by
  unfold invariant; infer_instance

end FlowEdge

/-- Panic semantics at the level of a single edge: a panicking mutation
(`.error`) observed no assignment, so the edge keeps its prior state; a
successful one yields the returned edge. -/
def applyOrKeep (e : FlowEdge W) (r : Except String (FlowEdge W)) : FlowEdge W :=
  match r with
  | .ok e' => e'
  | .error _ => e

/-- The `Ty : EdgeDir` type-level directedness marker of the Rust code,
made a value. -/
inductive EdgeDir where
  | directed : EdgeDir
  | undirected : EdgeDir
deriving DecidableEq, Repr

/-- `Subgraph<'a, W, E, Ty, G>`: a reference to the parent graph, the stored
`(src_id, dst_id, &E)` triples and the vertex-id list.  The `PhantomData<Ty>`
marker becomes the `dir` field; as in the code, no operation reads it or
`graph`. -/
structure Subgraph (G E : Type) where
  graph : G
  dir : EdgeDir
  edges : List (Nat × Nat × E)
  vertices : List Nat
deriving DecidableEq, Repr

namespace Subgraph

/-- `Subgraph::init`. -/
def init (dir : EdgeDir) (graph : G) (edges : List (Nat × Nat × E))
    (vertices : List Nat) : Subgraph G E :=
  { graph := graph, dir := dir, edges := edges, vertices := vertices }

/-- `AsMutSubgraph::remove_edge`: retain the triples whose edge's id differs
from `edge_id` (the `src_id`/`dst_id` arguments are ignored, as in the code).
`getId` stands for the `Edge` trait's `get_id`. -/
def remove_edge (getId : E → Nat) (sg : Subgraph G E)
    (_src_id _dst_id edge_id : Nat) : Subgraph G E :=
  { sg with edges := sg.edges.filter (fun t => getId t.2.2 != edge_id) }

/-- `AsMutSubgraph::remove_vertex`: retain the triples touching neither
endpoint equal to `vertex_id`, then retain the other vertex ids. -/
def remove_vertex (sg : Subgraph G E) (vertex_id : Nat) : Subgraph G E :=
  { sg with
    edges := sg.edges.filter (fun t => t.1 != vertex_id && t.2.1 != vertex_id),
    vertices := sg.vertices.filter (fun v_id => v_id != vertex_id) }

/-- `Neighbors::neighbors`: destination ids of the triples whose source is
`src_id`. -/
def neighbors (sg : Subgraph G E) (src_id : Nat) : List Nat :=
  (sg.edges.filter (fun t => t.1 == src_id)).map (fun t => t.2.1)

/-- `Vertices::vertices`. -/
def verticesList (sg : Subgraph G E) : List Nat :=
  sg.vertices

/-- `Edges::edges_from`: `(dst_id, edge)` pairs of the triples whose source
is `src_id`. -/
def edges_from (sg : Subgraph G E) (src_id : Nat) : List (Nat × E) :=
  (sg.edges.filter (fun t => t.1 == src_id)).map (fun t => (t.2.1, t.2.2))

/-- `Edges::edges_between`: the edges of the triples matching the ordered
pair `(src_id, dst_id)`. -/
def edges_between (sg : Subgraph G E) (src_id dst_id : Nat) : List E :=
  (sg.edges.filter (fun t => t.1 == src_id && t.2.1 == dst_id)).map
    (fun t => t.2.2)

/-- `Edges::edge_between`: first edge between the pair carrying `edge_id`. -/
def edge_between (getId : E → Nat) (sg : Subgraph G E)
    (src_id dst_id edge_id : Nat) : Option E :=
  (sg.edges_between src_id dst_id).find? (fun edge => getId edge == edge_id)

/-- `Edges::edge`: first stored edge carrying `edge_id`. -/
def edge (getId : E → Nat) (sg : Subgraph G E) (edge_id : Nat) : Option E :=
  (sg.edges.find? (fun t => getId t.2.2 == edge_id)).map (fun t => t.2.2)

/-- `Edges::as_directed_edges`: every stored triple followed by its
reversal — the code emits both directions unconditionally, for any `Ty`. -/
def as_directed_edges (sg : Subgraph G E) : List (Nat × Nat × E) :=
  sg.edges.flatMap (fun t => [(t.1, t.2.1, t.2.2), (t.2.1, t.1, t.2.2)])

/-- `Edges::has_any_edge`: whether `edges_between` is non-empty. -/
def has_any_edge (sg : Subgraph G E) (src_id dst_id : Nat) : Bool :=
  !(sg.edges_between src_id dst_id).isEmpty

/-- `Edges::edges`: the stored triples. -/
def edgesList (sg : Subgraph G E) : List (Nat × Nat × E) :=
  sg.edges

/-- `Edges::edges_count`. -/
def edges_count (sg : Subgraph G E) : Nat :=
  sg.edges.length

end Subgraph

/-- Modelled from the spec: the directed view `as_directed_edges` is claimed
to produce — each undirected edge appears twice, once per direction, while a
directed edge appears only once, in its own direction.  (The code's
directedness-sensitive behaviour is not in the repository files; this
definition follows the claim's words for comparison.) -/
def directedViewSpec (dir : EdgeDir) (edges : List (Nat × Nat × E)) :
    List (Nat × Nat × E) :=
  match dir with
  | .undirected => edges.flatMap (fun t => [(t.1, t.2.1, t.2.2), (t.2.1, t.1, t.2.2)])
  | .directed => edges

/-! ## Claims about the edge model -/

/-- The wrapping cast never exceeds the original unsigned value. -/
theorem usizeAsIsize_le (n : Nat) : usizeAsIsize n ≤ (n : Int) := by
  unfold usizeAsIsize
  have h := Nat.mod_le n (2 ^ 64)
  split <;> omega

/-- C8: converting a `(src_id, dst_id, weight)` triple into a `DefaultEdge`
or a `FlowEdge` always succeeds, the resulting edge's `src_id`, `dst_id` and
weight equal the inputs, and the resulting `FlowEdge` has capacity 0 and
flow 0. -/
theorem claim_C8_triple_conversion_total (W : Type) (s d : Nat) (w : W) :
    DefaultEdge.from_triple (s, d, w) =
      { src_id := s, dst_id := d, weight := Magnitude.finite w } ∧
    FlowEdge.from_triple (s, d, w) =
      Except.ok { src_id := s, dst_id := d, weight := Magnitude.finite w,
                  capacity := 0, flow := 0 } := by
  constructor
  · rfl
  · rfl

/-- C10: `FlowEdge::init` (used by the triple conversion) never fails: it
always returns the edge with capacity 0 and flow 0, so the
flow-greater-than-capacity guard in `init_with` is unreachable there. -/
theorem claim_C10_init_never_fails (W : Type) (s d : Nat) (w : Magnitude W) :
    FlowEdge.init s d w =
      Except.ok { src_id := s, dst_id := d, weight := w,
                  capacity := 0, flow := 0 } := by
  rfl

/-- A flow edge with capacity `2^63` and flow `-2^63`: this state is
reachable in the program, because `2^63 as isize` wraps to `-2^63` and the
`init_with` guard `-2^63 > -2^63` does not fire. -/
def hugeCapacityEdge : FlowEdge Nat :=
  { src_id := 0, dst_id := 1, weight := Magnitude.finite 0,
    capacity := 2 ^ 63, flow := -(2 ^ 63) }

/-- A freshly initialized flow edge: capacity 0, flow 0. -/
def zeroFlowEdge : FlowEdge Nat :=
  { src_id := 0, dst_id := 1, weight := Magnitude.finite 2,
    capacity := 0, flow := 0 }

/-- C2: the claimed fail-iff guards are broken by the code's wrapping
`usize as isize` cast, contradicting the setters' own `# Panics`
documentation.  `hugeCapacityEdge` (capacity `2^63`) is constructed by
`init_with`, yet `set_flow 0` fails although `0 ≤ capacity`; and on a
freshly initialized edge (flow 0), `set_capacity (2^63)` fails although
the new capacity is not below the current flow. -/
theorem claim_C2_wrap_bug :
    FlowEdge.init_with 0 1 (Magnitude.finite (0 : Nat)) (2 ^ 63) (-(2 ^ 63)) =
      Except.ok hugeCapacityEdge ∧
    (∃ msg, hugeCapacityEdge.set_flow 0 = Except.error msg) ∧
    (0 : Int) ≤ (hugeCapacityEdge.get_capacity : Int) ∧
    FlowEdge.init 0 1 (Magnitude.finite (2 : Nat)) = Except.ok zeroFlowEdge ∧
    (∃ msg, zeroFlowEdge.set_capacity (2 ^ 63) = Except.error msg) ∧
    zeroFlowEdge.get_flow ≤ ((2 ^ 63 : Nat) : Int) := by
  refine ⟨rfl, ⟨_, rfl⟩, by decide, rfl, ⟨_, rfl⟩, by decide⟩

/-- C1: `flow ≤ capacity` holds after every successful construction
(`init`, `init_with`, triple and quintuple conversions) and after every
successful mutation (`set_flow`, `set_capacity`, `set_weight`); a rejected
mutation leaves the prior state of the edge unchanged. -/
theorem claim_C1_flow_le_capacity_invariant (W : Type) (s d : Nat)
    (w : Magnitude W) (w0 : W) (c : Nat) (f : Int) (e e' : FlowEdge W) :
    (FlowEdge.init_with s d w c f = Except.ok e' → e'.invariant) ∧
    (FlowEdge.init s d w = Except.ok e' → e'.invariant) ∧
    (FlowEdge.from_triple (s, d, w0) = Except.ok e' → e'.invariant) ∧
    (FlowEdge.try_from (s, d, w0, c, f) = Except.ok e' → e'.invariant) ∧
    (e.set_flow f = Except.ok e' → e'.invariant) ∧
    (e.set_capacity c = Except.ok e' → e'.invariant) ∧
    (e.invariant → (e.set_weight w).invariant) ∧
    (f > (e.get_capacity : Int) →
      (∃ msg, e.set_flow f = Except.error msg) ∧ applyOrKeep e (e.set_flow f) = e) ∧
    ((c : Int) < e.get_flow →
      (∃ msg, e.set_capacity c = Except.error msg) ∧
        applyOrKeep e (e.set_capacity c) = e) := by
  refine ⟨?_, ?_, ?_, ?_, ?_, ?_, ?_, ?_, ?_⟩
  · unfold FlowEdge.init_with
    split
    · intro h; exact absurd h (by simp)
    · intro h; cases h
      have hw := usizeAsIsize_le c
      show f ≤ (c : Int)
      omega
  · intro h
    have h0 : FlowEdge.init s d w =
        Except.ok { src_id := s, dst_id := d, weight := w,
                    capacity := 0, flow := 0 } := rfl
    rw [h0] at h
    cases h
    unfold FlowEdge.invariant
    simp
  · intro h
    have h0 : FlowEdge.from_triple (s, d, w0) =
        Except.ok { src_id := s, dst_id := d, weight := Magnitude.finite w0,
                    capacity := 0, flow := 0 } := rfl
    rw [h0] at h
    cases h
    unfold FlowEdge.invariant
    simp
  · intro h
    simp only [FlowEdge.try_from, FlowEdge.init_with] at h
    by_cases hfc : f > usizeAsIsize c
    · rw [if_pos hfc] at h; exact absurd h (by simp)
    · rw [if_neg hfc, if_neg hfc] at h
      cases h
      have hw := usizeAsIsize_le c
      show f ≤ (c : Int)
      omega
  · unfold FlowEdge.set_flow
    split
    · intro h; exact absurd h (by simp)
    · intro h; cases h
      have hw := usizeAsIsize_le e.get_capacity
      show f ≤ (e.get_capacity : Int)
      omega
  · unfold FlowEdge.set_capacity
    split
    · intro h; exact absurd h (by simp)
    · intro h; cases h
      have hw := usizeAsIsize_le c
      show e.get_flow ≤ (c : Int)
      omega
  · unfold FlowEdge.set_weight FlowEdge.invariant
    simp
  · intro hf
    have hw := usizeAsIsize_le e.get_capacity
    have hf' : f > usizeAsIsize e.get_capacity := by omega
    unfold FlowEdge.set_flow applyOrKeep
    constructor
    · simp only [if_pos hf']; exact ⟨_, rfl⟩
    · simp only [if_pos hf']
  · intro hc
    have hw := usizeAsIsize_le c
    have hc' : usizeAsIsize c < e.get_flow := by omega
    unfold FlowEdge.set_capacity applyOrKeep
    constructor
    · simp only [if_pos hc']; exact ⟨_, rfl⟩
    · simp only [if_pos hc']

/-- C3: the claimed `Ok` exactly-when `flow ≤ capacity` is broken by the
code's wrapping `usize as isize` cast, contradicting the impl's own
`# Returns` documentation: `try_from (0, 1, w, 2^63, 0)` fails although
`0 ≤ 2^63`, because the guard compares `0 > -2^63`.  The capacity-3 /
flow-4 example of the claim does hold on both paths, with the message
identifying `4 > 3`. -/
theorem claim_C3_wrap_bug :
    (∃ msg, FlowEdge.try_from (0, 1, (5 : Nat), 2 ^ 63, (0 : Int)) =
       Except.error msg) ∧
    (0 : Int) ≤ ((2 ^ 63 : Nat) : Int) ∧
    FlowEdge.init_with 0 1 (Magnitude.finite (2 : Nat)) 3 4 =
      Except.error ("Flow of the edge can not be greater than the capacity: " ++ "4 > 3") ∧
    FlowEdge.try_from (0, 1, (2 : Nat), 3, (4 : Int)) =
      Except.error ("Flow of the edge can not be greater than the capacity: " ++ "4 > 3") := by
  exact ⟨⟨_, rfl⟩, by decide, rfl, rfl⟩

/-- C9: `set_weight` on either edge type changes only the weight (the
getters for `src_id`, `dst_id`, capacity and flow are unaffected), and no
interface operation ever changes `src_id` or `dst_id`. -/
theorem claim_C9_set_weight_frame (W : Type) (de : DefaultEdge W)
    (fe : FlowEdge W) (w : Magnitude W) (f : Int) (c : Nat) :
    ((de.set_weight w).get_weight = w ∧
     (de.set_weight w).get_src_id = de.get_src_id ∧
     (de.set_weight w).get_dst_id = de.get_dst_id) ∧
    ((fe.set_weight w).get_weight = w ∧
     (fe.set_weight w).get_src_id = fe.get_src_id ∧
     (fe.set_weight w).get_dst_id = fe.get_dst_id ∧
     (fe.set_weight w).get_capacity = fe.get_capacity ∧
     (fe.set_weight w).get_flow = fe.get_flow) ∧
    (∀ e', fe.set_flow f = Except.ok e' →
       e'.get_src_id = fe.get_src_id ∧ e'.get_dst_id = fe.get_dst_id ∧
       e'.get_weight = fe.get_weight ∧ e'.get_capacity = fe.get_capacity) ∧
    (∀ e', fe.set_capacity c = Except.ok e' →
       e'.get_src_id = fe.get_src_id ∧ e'.get_dst_id = fe.get_dst_id ∧
       e'.get_weight = fe.get_weight ∧ e'.get_flow = fe.get_flow) := by
  refine ⟨⟨rfl, rfl, rfl⟩, ⟨rfl, rfl, rfl, rfl, rfl⟩, ?_, ?_⟩
  · intro e' h
    unfold FlowEdge.set_flow at h
    split at h
    · exact absurd h (by simp)
    · cases h; exact ⟨rfl, rfl, rfl, rfl⟩
  · intro e' h
    unfold FlowEdge.set_capacity at h
    split at h
    · exact absurd h (by simp)
    · cases h; exact ⟨rfl, rfl, rfl, rfl⟩

/-! ## Claims about subgraph views -/

/-- C5: `remove_vertex v` removes `v` from the view's vertex list and every
stored triple whose source or destination is `v`, keeps every other triple
and vertex, and never mutates the parent graph. -/
theorem claim_C5_remove_vertex (G E : Type) (sg : Subgraph G E) (v : Nat) :
    (sg.remove_vertex v).graph = sg.graph ∧
    v ∉ (sg.remove_vertex v).verticesList ∧
    (∀ t ∈ (sg.remove_vertex v).edgesList, t.1 ≠ v ∧ t.2.1 ≠ v) ∧
    (∀ t ∈ sg.edges, t.1 ≠ v → t.2.1 ≠ v → t ∈ (sg.remove_vertex v).edges) ∧
    (∀ x ∈ sg.vertices, x ≠ v → x ∈ (sg.remove_vertex v).vertices) := by
  refine ⟨rfl, ?_, ?_, ?_, ?_⟩
  · intro h
    simp only [Subgraph.remove_vertex, Subgraph.verticesList, List.mem_filter] at h
    simp at h
  · intro t ht
    simp only [Subgraph.remove_vertex, Subgraph.edgesList, List.mem_filter] at ht
    have := ht.2
    simp at this
    exact this
  · intro t ht h1 h2
    simp only [Subgraph.remove_vertex, List.mem_filter]
    refine ⟨ht, ?_⟩
    simp [h1, h2]
  · intro x hx hxv
    simp only [Subgraph.remove_vertex, List.mem_filter]
    refine ⟨hx, ?_⟩
    simp [hxv]

/-- C6: `remove_edge src dst eid` removes exactly the stored triples whose
edge carries id `eid` (even with multiplicity), keeps every other triple
with its multiplicity, and leaves the vertex list and the parent graph
unchanged. -/
theorem claim_C6_remove_edge (G E : Type) [DecidableEq E] (getId : E → Nat)
    (sg : Subgraph G E) (s d eid : Nat) (t : Nat × Nat × E) :
    (Subgraph.remove_edge getId sg s d eid).vertices = sg.vertices ∧
    (Subgraph.remove_edge getId sg s d eid).graph = sg.graph ∧
    (t ∈ (Subgraph.remove_edge getId sg s d eid).edges ↔
       t ∈ sg.edges ∧ getId t.2.2 ≠ eid) ∧
    (getId t.2.2 ≠ eid →
       List.count t (Subgraph.remove_edge getId sg s d eid).edges =
         List.count t sg.edges) := by
  refine ⟨rfl, rfl, ?_, ?_⟩
  · simp only [Subgraph.remove_edge, List.mem_filter]
    constructor
    · rintro ⟨h1, h2⟩
      refine ⟨h1, ?_⟩
      simpa using h2
    · rintro ⟨h1, h2⟩
      refine ⟨h1, ?_⟩
      simpa using h2
  · intro hne
    simp only [Subgraph.remove_edge]
    exact List.count_filter (by simpa using hne)

/-- Counting one destination among the neighbors of `s` matches the number
of stored triples from `s` to `d`. -/
theorem count_neighbors_eq_length_between (l : List (Nat × Nat × E)) (s d : Nat) :
    List.count d ((l.filter (fun t => t.1 == s)).map (fun t => t.2.1)) =
      ((l.filter (fun t => t.1 == s && t.2.1 == d)).map (fun t => t.2.2)).length := by
  induction l with
  | nil => rfl
  | cons a l ih =>
    obtain ⟨a1, a2, a3⟩ := a
    by_cases h1 : a1 = s
    · by_cases h2 : a2 = d
      · simp [List.filter_cons, h1, h2, List.count_cons, ih]
      · simp [List.filter_cons, h1, h2, List.count_cons, ih, Ne.symm h2]
    · simp [List.filter_cons, h1, ih]

/-- Counting one edge among the edges between `s` and `d` matches the count
of the full triple among the stored triples. -/
theorem count_between_eq_count_triple (E : Type) [DecidableEq E]
    (l : List (Nat × Nat × E)) (s d : Nat) (e : E) :
    List.count e ((l.filter (fun t => t.1 == s && t.2.1 == d)).map (fun t => t.2.2)) =
      List.count (s, d, e) l := by
  induction l with
  | nil => rfl
  | cons a l ih =>
    obtain ⟨a1, a2, a3⟩ := a
    by_cases h1 : a1 = s
    · by_cases h2 : a2 = d
      · by_cases h3 : a3 = e
        · simp [List.filter_cons, h1, h2, h3, List.count_cons, ih]
        · simp [List.filter_cons, h1, h2, List.count_cons, ih, Ne.symm h3, h3]
      · simp [List.filter_cons, h1, h2, List.count_cons, ih, Prod.mk.injEq, Ne.symm h2]
    · simp [List.filter_cons, h1, List.count_cons, ih, Prod.mk.injEq, Ne.symm h1]

/-- C7: the read queries are filters/maps over the stored triples:
`neighbors` counts destinations exactly as often as `edges_between` has
matching triples, `edges_between` returns each edge with the multiplicity of
its triple (parallel edges included), `edge` finds a stored edge with the
requested id exactly when one exists, `has_any_edge` mirrors non-emptiness
of `edges_between`, and `edges_count` is the number of stored triples. -/
theorem claim_C7_read_queries (G E : Type) [DecidableEq E] (getId : E → Nat)
    (sg : Subgraph G E) (s d eid : Nat) (e : E) :
    List.count d (sg.neighbors s) = (sg.edges_between s d).length ∧
    List.count e (sg.edges_between s d) = List.count (s, d, e) sg.edges ∧
    (∀ x, Subgraph.edge getId sg eid = some x →
       getId x = eid ∧ ∃ a b, (a, b, x) ∈ sg.edges) ∧
    ((Subgraph.edge getId sg eid).isSome = true ↔
       ∃ t ∈ sg.edges, getId t.2.2 = eid) ∧
    (sg.has_any_edge s d = true ↔ sg.edges_between s d ≠ []) ∧
    sg.edges_count = sg.edgesList.length := by
  refine ⟨?_, ?_, ?_, ?_, ?_, rfl⟩
  · exact count_neighbors_eq_length_between sg.edges s d
  · exact count_between_eq_count_triple E sg.edges s d e
  · intro x hx
    simp only [Subgraph.edge, Option.map_eq_some'] at hx
    obtain ⟨t, ht, rfl⟩ := hx
    have hmem := List.mem_of_find?_eq_some ht
    have hp := List.find?_some ht
    simp only [beq_iff_eq] at hp
    exact ⟨hp, t.1, t.2.1, hmem⟩
  · simp only [Subgraph.edge, Option.isSome_map', List.find?_isSome, beq_iff_eq]
  · cases hE : sg.edges_between s d with
    | nil => simp [Subgraph.has_any_edge, hE]
    | cons a l => simp [Subgraph.has_any_edge, hE]

/-- A directed one-edge subgraph for exercising `as_directed_edges`: the
parent graph is irrelevant (`Unit`), edges are identified by their `Nat`
payload. -/
def directedOneEdgeSub : Subgraph Unit Nat :=
  Subgraph.init EdgeDir.directed () [(0, 1, 7)] [0, 1]

/-- C4 counterexample: on a subgraph whose directedness marker is
`directed`, `as_directed_edges` still emits the stored triple in both
directions — the reversed triple `(1, 0, 7)` appears and the result differs
from the claimed directed view (one entry per directed edge, in its own
direction). -/
theorem claim_C4_counterexample :
    directedOneEdgeSub.dir = EdgeDir.directed ∧
    (1, 0, 7) ∈ directedOneEdgeSub.as_directed_edges ∧
    directedOneEdgeSub.as_directed_edges.length = 2 ∧
    directedOneEdgeSub.as_directed_edges ≠
      directedViewSpec directedOneEdgeSub.dir directedOneEdgeSub.edges := by
  refine ⟨rfl, ?_, rfl, ?_⟩
  · simp [directedOneEdgeSub, Subgraph.init, Subgraph.as_directed_edges]
  · intro h
    have : ((1 : Nat), (0 : Nat), (7 : Nat)) ∈
        directedViewSpec directedOneEdgeSub.dir directedOneEdgeSub.edges := by
      rw [← h]
      simp [directedOneEdgeSub, Subgraph.init, Subgraph.as_directed_edges]
    simp [directedViewSpec, directedOneEdgeSub, Subgraph.init] at this

/-- Each stored triple contributes both of its directions to the flattened
view: the count of a directed triple in the result is the count of that
triple plus the count of its reversal among the stored triples. -/
theorem count_flatMap_both_directions (E : Type) [DecidableEq E]
    (l : List (Nat × Nat × E)) (s d : Nat) (e : E) :
    List.count (s, d, e)
        (l.flatMap (fun t => [(t.1, t.2.1, t.2.2), (t.2.1, t.1, t.2.2)])) =
      List.count (s, d, e) l + List.count (d, s, e) l := by
  induction l with
  | nil => rfl
  | cons a l ih =>
    obtain ⟨a1, a2, a3⟩ := a
    simp only [List.flatMap_cons, List.count_append, List.count_cons,
      List.count_nil, ih, beq_iff_eq, Prod.mk.injEq]
    split_ifs <;> first | omega | tauto

/-- Flattening two directions per stored triple doubles the length. -/
theorem length_flatMap_two_per_triple (E : Type) (l : List (Nat × Nat × E)) :
    (l.flatMap (fun t => [(t.1, t.2.1, t.2.2), (t.2.1, t.1, t.2.2)])).length =
      2 * l.length := by
  induction l with
  | nil => rfl
  | cons a l ih =>
    simp only [List.flatMap_cons, List.length_append, ih, List.length_cons,
      List.length_nil]
    omega

/-- C4 (amended): `as_directed_edges` emits every stored triple in both
directions regardless of the subgraph's directedness marker: the count of a
directed triple in the view is the count of that triple plus the count of
its reversal among the stored triples, and the view has exactly twice
`edges_count` entries. -/
theorem claim_C4_amended_both_directions (G E : Type) [DecidableEq E]
    (sg : Subgraph G E) (s d : Nat) (e : E) :
    List.count (s, d, e) sg.as_directed_edges =
      List.count (s, d, e) sg.edgesList + List.count (d, s, e) sg.edgesList ∧
    sg.as_directed_edges.length = 2 * sg.edges_count := by
  constructor
  · exact count_flatMap_both_directions E sg.edges s d e
  · exact length_flatMap_two_per_triple E sg.edges
